import Mathlib

/-!
Shallow embedding of the phtheirichthys routing library, for checking its
natural-language specification against the code.

Conventions of the embedding:
* Rust `f64` arithmetic is modelled over `ℚ` (exact real-number semantics of the
  formulas in the source; none of the checked properties depend on rounding of
  binary floating point).
* `chrono::Duration` is modelled as `ℤ`, counting seconds.  Every duration built
  in the modelled code paths goes through `Duration::seconds`, so the
  sub-second part is always zero.
* Rust `as i64` / `as u8` casts on `f64` truncate toward zero (saturating); they
  are modelled by `ratTruncToInt` / `ratTruncToU8`.
* Each definition carries a pointer to the Rust item it embeds
  (file and lines of the repository under inspection).
-/

namespace Phth

/-- Truncation toward zero of a rational, the semantics of the Rust cast
`x as i64` for an `f64` value `x` (ignoring saturation, which the checked
inputs never reach). -/
def ratTruncToInt (q : ℚ) : ℤ :=
  if 0 ≤ q then ⌊q⌋ else ⌈q⌉

/-- Truncation of a rational to `u8` as in the Rust cast `x as u8`:
negative values clamp to 0, values above 255 clamp to 255. -/
def ratTruncToU8 (q : ℚ) : ℕ :=
  if 0 ≤ q then min 255 ⌊q⌋.toNat else 0

/-- `src/src/utils/mod.rs:16-22` — `enum SpeedUnit`. -/
inductive SpeedUnit : Type
  | knot : SpeedUnit
  | meterPerSecond : SpeedUnit
  | kiloMeterPerHour : SpeedUnit
deriving DecidableEq

/-- `src/src/utils/mod.rs:9-14` — `struct Speed { value: f64, unit: SpeedUnit }`. -/
structure Speed : Type where
  value : ℚ
  unit : SpeedUnit
deriving DecidableEq

namespace Speed

/-- `src/src/utils/mod.rs:52-58` — `Speed::kts`. -/
def kts (s : Speed) : ℚ :=
  match s.unit with
  | .knot => s.value
  | .meterPerSecond => s.value * (36/10) / (1852/1000)
  | .kiloMeterPerHour => s.value / (1852/1000)

/-- `src/src/utils/mod.rs:60-66` — `Speed::m_s`. -/
def m_s (s : Speed) : ℚ :=
  match s.unit with
  | .knot => s.value * (1852/1000) / (36/10)
  | .meterPerSecond => s.value
  | .kiloMeterPerHour => s.value / (36/10)

/-- `src/src/utils/mod.rs:68-74` — `Speed::km_h`. -/
def km_h (s : Speed) : ℚ :=
  match s.unit with
  | .knot => s.value * (1852/1000)
  | .meterPerSecond => s.value * (36/10)
  | .kiloMeterPerHour => s.value

/-- `src/src/utils/mod.rs:31-36` — `Speed::from_kts`. -/
def fromKts (v : ℚ) : Speed := ⟨v, .knot⟩

/-- `src/src/utils/mod.rs:38-43` — `Speed::from_m_s`. -/
def fromMS (v : ℚ) : Speed := ⟨v, .meterPerSecond⟩

/-- `src/src/utils/mod.rs:45-50` — `Speed::from_km_h`. -/
def fromKmH (v : ℚ) : Speed := ⟨v, .kiloMeterPerHour⟩

/-- `src/src/utils/mod.rs:26-29` — `Speed::MIN`, the 2 kt floor. -/
def MIN : Speed := ⟨2, .knot⟩

/-- `src/src/utils/mod.rs:91-95` — `PartialOrd` on `Speed` compares `kts`. -/
def ltS (a b : Speed) : Prop := a.kts < b.kts

instance : DecidablePred fun p : Speed × Speed => p.1.ltS p.2 := by
  intro p; unfold ltS; infer_instance

instance instDecidableLtS (a b : Speed) : Decidable (a.ltS b) := by
  unfold ltS; infer_instance

/-- `src/src/utils/mod.rs:103-107` — `MulAssign<f64>` multiplies the raw value,
keeping the unit. -/
def mulAssign (s : Speed) (r : ℚ) : Speed := ⟨s.value * r, s.unit⟩

/-- `src/src/utils/mod.rs:109-115` — `Mul<f64>` converts to m/s. -/
def mulScalar (s : Speed) (r : ℚ) : Speed := fromMS (s.m_s * r)

end Speed

/-- `src/src/utils/mod.rs:199-204` — `enum DistanceUnit`. -/
inductive DistanceUnit : Type
  | meters : DistanceUnit
  | nauticalMiles : DistanceUnit
deriving DecidableEq

/-- `src/src/utils/mod.rs:192-197` — `struct Distance { value: f64, unit }`. -/
structure Distance : Type where
  value : ℚ
  unit : DistanceUnit
deriving DecidableEq

namespace Distance

/-- `src/src/utils/mod.rs:232-237` — `Distance::m`. -/
def m (d : Distance) : ℚ :=
  match d.unit with
  | .meters => d.value
  | .nauticalMiles => d.value * 1852

/-- `src/src/utils/mod.rs:239-244` — `Distance::nm`. -/
def nm (d : Distance) : ℚ :=
  match d.unit with
  | .meters => d.value / 1852
  | .nauticalMiles => d.value

/-- `src/src/utils/mod.rs:246-251` — `Distance::val`. -/
def val (d : Distance) (u : DistanceUnit) : ℚ :=
  match u with
  | .meters => d.m
  | .nauticalMiles => d.nm

/-- `src/src/utils/mod.rs:218-223` — `Distance::from_m`. -/
def fromM (v : ℚ) : Distance := ⟨v, .meters⟩

/-- `src/src/utils/mod.rs:225-230` — `Distance::from_nm`. -/
def fromNm (v : ℚ) : Distance := ⟨v, .nauticalMiles⟩

/-- `src/src/utils/mod.rs:207-212` — `Distance::zero`. -/
def zero : Distance := ⟨0, .meters⟩

/-- `src/src/utils/mod.rs:295-304` — `Mul<f64>` multiplies the raw value,
keeping the unit. -/
def mulScalar (d : Distance) (r : ℚ) : Distance := ⟨d.value * r, d.unit⟩

/-- `src/src/utils/mod.rs:317-326` — `Add<Distance>`: the right operand is
converted into the unit of the left one. -/
def addD (a b : Distance) : Distance := ⟨a.value + b.val a.unit, a.unit⟩

/-- `src/src/utils/mod.rs:277-281` — `Ord` on `Distance` compares `m`. -/
def ltD (a b : Distance) : Prop := a.m < b.m

instance instDecidableLtD (a b : Distance) : Decidable (a.ltD b) := by
  unfold ltD; infer_instance

/-- `src/src/utils/mod.rs:263-267` — `PartialEq` on `Distance` compares `m`. -/
def leD (a b : Distance) : Prop := a.m ≤ b.m

instance instDecidableLeD (a b : Distance) : Decidable (a.leD b) := by
  unfold leD; infer_instance

end Distance

/-- `num_seconds()` of `chrono::Duration::max_value()` (`i64::MAX`
milliseconds, so 9223372036854775.807 s truncated). Used by the total
division `Distance / Speed`. -/
def durationMaxValueSecs : ℤ := 9223372036854775

/-- `src/src/utils/mod.rs:117-126` — `Mul<Duration> for Speed`:
`Distance::from_m(speed.m_s() * duration.num_seconds())`.
The duration argument is in whole seconds. -/
def Speed.mulDuration (s : Speed) (d : ℤ) : Distance :=
  ⟨s.m_s * d, .meters⟩

/-- `src/src/utils/mod.rs:372-382` — `Div<Speed> for Distance`: total division
returning `Duration::max_value()` when the speed is zero, otherwise
`Duration::seconds((self.m() / rhs.m_s()) as i64)`. Result in whole seconds. -/
def Distance.divSpeed (d : Distance) (s : Speed) : ℤ :=
  if s.m_s = 0 then durationMaxValueSecs else ratTruncToInt (d.m / s.m_s)

/-- `src/src/position.rs:363-366` — `enum Heading { HEADING(f64), TWA(f64) }`. -/
inductive Heading : Type
  | HEADING : ℚ → Heading
  | TWA : ℚ → Heading
deriving DecidableEq

namespace Heading

/-- `src/src/position.rs:377-392` — `Heading::heading(twd)`: a compass heading
is returned as-is, a regulated TWA is resolved against the wind direction and
wrapped into `[0,360)` by a single correction. -/
def heading (h : Heading) (twd : ℚ) : ℚ :=
  match h with
  | .HEADING v => v
  | .TWA twa =>
    let h0 := twd - twa
    let h1 := if h0 < 0 then h0 + 360 else h0
    if h1 ≥ 360 then h1 - 360 else h1

/-- `src/src/position.rs:394-409` — `Heading::twa(twd)`: a compass heading is
resolved against the wind direction and wrapped into `(-180,180]` by a single
correction, a regulated TWA is returned as-is. -/
def twa (h : Heading) (twd : ℚ) : ℚ :=
  match h with
  | .HEADING v =>
    let t0 := twd - v
    let t1 := if t0 ≤ -180 then t0 + 360 else t0
    if t1 > 180 then t1 - 360 else t1
  | .TWA t => t

end Heading

/-- `src/src/position.rs:275-280` — `struct Penalty { duration, ratio }`,
duration in whole seconds. -/
structure Penalty : Type where
  duration : ℤ
  ratio : ℚ
deriving DecidableEq

/-- `src/src/position.rs:124-129` — `struct Penalties { gybe, sail_change,
tack: Option<Penalty> }`. -/
structure Penalties : Type where
  gybe : Option Penalty
  sail_change : Option Penalty
  tack : Option Penalty
deriving DecidableEq

namespace Penalties

/-- `src/src/position.rs:165-171` — `Penalties::new`. -/
def new : Penalties := ⟨none, none, none⟩

/-- `src/src/position.rs:173-175` — `Penalties::is_some`: true iff some
component is present with non-zero duration. -/
def isSome (p : Penalties) : Bool :=
  (match p.gybe with | some g => decide (g.duration ≠ 0) | none => false) ||
  (match p.sail_change with | some s => decide (s.duration ≠ 0) | none => false) ||
  (match p.tack with | some t => decide (t.duration ≠ 0) | none => false)

/-- One step of the running minimum in `Penalties::min_penalty_duration`:
`if !min.is_some_and(|min| min <= &d) { min.replace(d) }`. -/
def updMin (cur : Option ℤ) (d : ℤ) : Option ℤ :=
  match cur with
  | some mv => if mv ≤ d then some mv else some d
  | none => some d

/-- Apply `updMin` when the component is present. -/
def updMinOpt (cur : Option ℤ) (c : Option Penalty) : Option ℤ :=
  match c with
  | some pen => updMin cur pen.duration
  | none => cur

/-- `src/src/position.rs:177-200` — `Penalties::min_penalty_duration`: the
minimum duration of the present components (gybe, then sail_change, then
tack), or `None` if none is present. -/
def minPenaltyDuration (p : Penalties) : Option ℤ :=
  updMinOpt (updMinOpt (updMinOpt none p.gybe) p.sail_change) p.tack

/-- `src/src/position.rs:202-206` — `Penalties::duration`: the maximum of the
present durations, each absent component counting as zero. -/
def duration (p : Penalties) : ℤ :=
  max (match p.gybe with | some g => g.duration | none => 0)
    (max (match p.sail_change with | some s => s.duration | none => 0)
      (match p.tack with | some t => t.duration | none => 0))

/-- `src/src/position.rs:208-217` — `Penalties::navigate(duration)`: each
present component contributes its ratio to the accumulated product and keeps
`duration - d` when strictly larger than `d`, otherwise disappears. -/
def navigate (p : Penalties) (d : ℤ) : Penalties × ℚ :=
  let r1 : ℚ := match p.gybe with | some g => 1 * g.ratio | none => 1
  let r2 : ℚ := match p.sail_change with | some s => r1 * s.ratio | none => r1
  let r3 : ℚ := match p.tack with | some t => r2 * t.ratio | none => r2
  (⟨p.gybe.bind fun g => if g.duration ≤ d then none else some ⟨g.duration - d, g.ratio⟩,
    p.sail_change.bind fun s => if s.duration ≤ d then none else some ⟨s.duration - d, s.ratio⟩,
    p.tack.bind fun t => if t.duration ≤ d then none else some ⟨t.duration - d, t.ratio⟩⟩,
   r3)

/-- `src/src/position.rs:262-273` — `Sub<Duration> for Penalties`: a component
survives only when its duration is strictly larger than the subtracted
duration. -/
def subDuration (p : Penalties) (d : ℤ) : Penalties :=
  ⟨p.gybe.bind fun g => if g.duration ≤ d then none else some ⟨g.duration - d, g.ratio⟩,
   p.sail_change.bind fun s => if s.duration ≤ d then none else some ⟨s.duration - d, s.ratio⟩,
   p.tack.bind fun t => if t.duration ≤ d then none else some ⟨t.duration - d, t.ratio⟩⟩

/-- One `merge_penalty` call of `Penalties::to_vec`
(`src/src/position.rs:228-255`).  `to_vec` always calls it with `index = 0`,
and then the guard `penalties.len() == 0 || penalties.len() >= index` is
always true, so the call appends the penalty whenever its duration is
non-zero; the remaining branches of `merge_penalty` are unreachable. -/
def pushPenalty (l : List Penalty) (c : Option Penalty) : List Penalty :=
  match c with
  | none => l
  | some pen => if pen.duration = 0 then l else l ++ [pen]

/-- `src/src/position.rs:219-226` — `Penalties::to_vec`: gybe, then
sail_change, then tack. -/
def toVec (p : Penalties) : List Penalty :=
  pushPenalty (pushPenalty (pushPenalty [] p.gybe) p.sail_change) p.tack

/-- Number of present components; the termination measure of the motion
integration recursions. -/
def countSome (p : Penalties) : ℕ :=
  (match p.gybe with | some _ => 1 | none => 0) +
  (match p.sail_change with | some _ => 1 | none => 0) +
  (match p.tack with | some _ => 1 | none => 0)

end Penalties

/-- `navigate` never adds a component. -/
lemma Penalties.countSome_navigate_le (p : Penalties) (d : ℤ) :
    (p.navigate d).1.countSome ≤ p.countSome := by
  rcases p with ⟨g, s, t⟩
  rcases g with _ | ⟨gd, gr⟩ <;> rcases s with _ | ⟨sd, sr⟩ <;> rcases t with _ | ⟨td, tr⟩ <;>
    simp only [Penalties.navigate, Penalties.countSome, Option.bind] <;>
    (try split_ifs) <;> simp <;> omega

/-- `updMin` is the running minimum. -/
lemma Penalties.updMin_min (cur : Option ℤ) (d : ℤ) :
    Penalties.updMin cur d = some (match cur with | some mv => min mv d | none => d) := by
  cases cur <;> simp only [Penalties.updMin, min_def] <;> (try split_ifs) <;> rfl

/-- Navigating by the minimum penalty duration drops at least the component
attaining it. -/
lemma Penalties.countSome_navigate_min_lt (p : Penalties) (m : ℤ)
    (h : p.minPenaltyDuration = some m) :
    (p.navigate m).1.countSome < p.countSome := by
  rcases p with ⟨g, s, t⟩
  rcases g with _ | ⟨gd, gr⟩ <;> rcases s with _ | ⟨sd, sr⟩ <;> rcases t with _ | ⟨td, tr⟩ <;>
    simp only [Penalties.minPenaltyDuration, Penalties.updMinOpt, Penalties.updMin_min,
      Option.some.injEq] at h <;>
    simp only [Penalties.navigate, Penalties.countSome, Option.bind] <;>
    (try split_ifs) <;> simp_all <;> omega

/-- Subtracting the duration of the first `to_vec` segment drops at least the
component it came from. -/
lemma Penalties.countSome_sub_head_lt (p : Penalties) (p0 : Penalty) (rest : List Penalty)
    (h : p.toVec = p0 :: rest) :
    (p.subDuration p0.duration).countSome < p.countSome := by
  rcases p with ⟨g, s, t⟩
  rcases p0 with ⟨pd, pr⟩
  rcases g with _ | ⟨gd, gr⟩ <;> rcases s with _ | ⟨sd, sr⟩ <;> rcases t with _ | ⟨td, tr⟩ <;>
    simp only [Penalties.toVec, Penalties.pushPenalty] at h <;>
    (try split_ifs at h) <;>
    simp_all only [List.nil_append, List.cons_append, List.cons.injEq, Penalty.mk.injEq,
      List.append_assoc, reduceCtorEq] <;>
    simp_all [Penalties.subDuration, Penalties.countSome] <;>
    (try split_ifs) <;> simp_all <;> omega

/-- `src/src/polar/mod.rs:45-62` — the scan loop of `Polar::interpolation_index`.
`prev` is `values[j]`, already known to be `< value`; the remaining list is
`values[j+1..]`.  Exhausting the list reproduces the in-loop exit
`(len-1, 0, 1.0)` (the sibling arm indexing `values[len]` is unreachable
because the loop guard has just held for `values[len-1]`). -/
def interpGo (value : ℚ) : ℚ → ℕ → List ℚ → ℕ × ℕ × ℚ
  | _, j, [] => (j, 0, 1)
  | prev, j, v1 :: rest =>
    if v1 < value then interpGo value v1 (j + 1) rest
    else (j, j + 1, (v1 - value) / (v1 - prev))

/-- `src/src/polar/mod.rs:45-62` — `Polar::interpolation_index`.  The source
indexes `values[0]` unconditionally and panics on an empty table; the empty
case is given the junk value `(0,0,0)` (polar tables are never empty). -/
def Polar.interpolationIndex (values : List ℚ) (value : ℚ) : ℕ × ℕ × ℚ :=
  match values with
  | [] => (0, 0, 0)
  | v0 :: rest => if v0 < value then interpGo value v0 0 rest else (0, 0, 0)

/-- `src/src/polar/mod.rs:498-509` — `struct Foil`. -/
structure Foil : Type where
  speed_ratio : ℚ
  twa_min : ℚ
  twa_max : ℚ
  twa_merge : ℚ
  tws_min : ℚ
  tws_max : ℚ
  tws_merge : ℚ
deriving DecidableEq

/-- `src/src/polar/mod.rs:511-516` — `struct Hull`. -/
structure Hull : Type where
  speed_ratio : ℚ
deriving DecidableEq

/-- `src/src/polar/mod.rs:553-559` — `struct PolarPenalty { ratio, timer: u16 }`. -/
structure PolarPenalty : Type where
  ratio : ℚ
  timer : ℕ
deriving DecidableEq

/-- `src/src/polar/mod.rs:545-551` — `struct PenaltyBoundaries { lw, hw }`. -/
structure PenaltyBoundaries : Type where
  lw : PolarPenalty
  hw : PolarPenalty
deriving DecidableEq

/-- `src/src/polar/mod.rs:531-543` — `struct PenaltyCase`. -/
structure PenaltyCase : Type where
  std_timer_sec : ℕ
  std_ratio : ℚ
  pro_timer_sec : ℕ
  pro_ratio : ℚ
  std : Option PenaltyBoundaries
  pro : Option PenaltyBoundaries
deriving DecidableEq

/-- `src/src/polar/mod.rs:518-529` — `struct Winch`; `lws`/`hws` are `u8`. -/
structure Winch : Type where
  tack : PenaltyCase
  gybe : PenaltyCase
  sail_change : PenaltyCase
  lws : Option ℕ
  hws : Option ℕ
deriving DecidableEq

/-- `src/src/polar/mod.rs:561-568` — `struct PolarSail`; `speed` is indexed
`speed[twa_index][tws_index]`. -/
structure PolarSail : Type where
  id : ℕ
  name : String
  speed : List (List ℚ)
deriving DecidableEq

/-- `src/src/polar/mod.rs:478-496` — `struct Polar` (data fields only). -/
structure Polar : Type where
  id : ℕ
  label : String
  global_speed_ratio : ℚ
  ice_speed_ratio : ℚ
  auto_sail_change_tolerance : ℚ
  bad_sail_tolerance : ℚ
  max_speed : ℚ
  foil : Foil
  hull : Hull
  winch : Winch
  tws : List ℚ
  twa : List ℚ
  sail : List PolarSail
deriving DecidableEq

/-- `src/src/phtheirichthys.rs:249-257` — `struct BoatOptions`. -/
structure BoatOptions : Type where
  lt : Bool
  gt : Bool
  code0 : Bool
  foil : Bool
  hull : Bool
  winch : Bool
  stamina : Bool
deriving DecidableEq

/-- `src/src/wind/mod.rs:102-107` — `struct Wind { direction: f64, speed: Speed }`. -/
structure Wind : Type where
  direction : ℚ
  speed : Speed
deriving DecidableEq

/-- `src/src/position.rs:59-66` — `struct Sail { index, id, auto }`.
`PartialEq<Sail>` compares by `id` only (`src/src/position.rs:84-88`). -/
structure Sail : Type where
  index : ℕ
  id : ℕ
  auto : Bool
deriving DecidableEq

/-- `src/src/position.rs:75-81` — `Sail::from_index`. -/
def Sail.fromIndex (n : ℕ) : Sail := ⟨n, n + 1, false⟩

/-- `src/src/position.rs:90-98` — `From<usize> for Sail`. -/
def Sail.fromUsize (sailId : ℕ) : Sail :=
  ⟨(max (sailId % 10) 1) - 1, max (sailId % 10) 1, decide (sailId ≥ 10)⟩

/-- `src/src/polar/mod.rs:35-42` — `struct PolarResult`; `foil` and `boost`
are `u8` percentages. -/
structure PolarResult : Type where
  sail : Sail
  speed : Speed
  foil : ℕ
  boost : ℕ
  best : ℚ
deriving DecidableEq

/-- `src/src/polar/mod.rs:282-310` — `Polar::foil_amount`.  The early
`return 1.0` arms are encoded as `none`.  Note the asymmetry copied from the
source: in the TWA direction, angles beyond `twa_max + twa_merge` return 1,
but in the TWS direction, wind speeds at or beyond `tws_max + tws_merge`
yield the coefficient `cv = 1.0` (the last arm is not an early return). -/
def Polar.foilAmount (p : Polar) (twa : ℚ) (windSpeed : Speed) : ℚ :=
  let ws := windSpeed.kts
  let f := p.foil
  let ct0 : Option ℚ :=
    if twa ≤ f.twa_min - f.twa_merge then none
    else if twa < f.twa_min then some ((twa - (f.twa_min - f.twa_merge)) / f.twa_merge)
    else if twa < f.twa_max then some 1
    else if twa < f.twa_max + f.twa_merge then some ((f.twa_max + f.twa_merge - twa) / f.twa_merge)
    else none
  match ct0 with
  | none => 1
  | some ct =>
    let cv0 : Option ℚ :=
      if ws ≤ f.tws_min - f.tws_merge then none
      else if ws < f.tws_min then some ((ws - (f.tws_min - f.tws_merge)) / f.tws_merge)
      else if ws < f.tws_max then some 1
      else if ws < f.tws_max + f.tws_merge then some ((f.tws_max + f.tws_merge - ws) / f.tws_merge)
      else some 1
    match cv0 with
    | none => 1
    | some cv => 1 + (f.speed_ratio - 1) * ct * cv

/-- `src/src/polar/mod.rs:347-350` — `Polar::interpolation`, exactly the
de Casteljau expression of the source. -/
def Polar.interpolation (x1 x2 y1 y2 x : ℚ) : ℚ :=
  let t := (x - x1) / (x2 - x1)
  (1 - t) * ((1 - t) * ((1 - t) * y1 + t * y1) + t * ((1 - t) * y1 + t * y2)) +
    t * ((1 - t) * ((1 - t) * y1 + t * y2) + t * ((1 - t) * y2 + t * y2))

/-- The in-between branch of `get_penalty_values`
(`src/src/polar/mod.rs:336-344`). -/
def Polar.penaltyFromBounds (staminaCoef : ℚ) (lws hws : ℚ) (bnd : PenaltyBoundaries)
    (wsKts : ℚ) : Penalty :=
  if wsKts ≤ lws then
    ⟨ratTruncToInt ((bnd.lw.timer : ℚ) * staminaCoef), bnd.lw.ratio⟩
  else if wsKts ≥ hws then
    ⟨ratTruncToInt ((bnd.hw.timer : ℚ) * staminaCoef), bnd.hw.ratio⟩
  else
    ⟨ratTruncToInt (Polar.interpolation lws hws (bnd.lw.timer : ℚ) (bnd.hw.timer : ℚ) wsKts * staminaCoef),
     Polar.interpolation lws hws bnd.lw.ratio bnd.hw.ratio wsKts⟩

/-- `src/src/polar/mod.rs:312-345` — `Polar::get_penalty_values`.  The Rust
`match` on `(winch, lws, hws, std, pro)` is translated arm by arm, in order. -/
def Polar.getPenaltyValues (p : Polar) (boatOptions : BoatOptions) (penaltyCase : PenaltyCase)
    (windSpeed : Speed) (stamina : ℚ) : Penalty :=
  let staminaCoef : ℚ :=
    match boatOptions.stamina with
    | false => 1
    | true => 1/2 + (100 - stamina) / 100 * (3/2)
  match boatOptions.winch, p.winch.lws, p.winch.hws, penaltyCase.std, penaltyCase.pro with
  | true, some lws, some hws, _, some pro =>
    Polar.penaltyFromBounds staminaCoef (lws : ℚ) (hws : ℚ) pro windSpeed.kts
  | false, some lws, some hws, some std, _ =>
    Polar.penaltyFromBounds staminaCoef (lws : ℚ) (hws : ℚ) std windSpeed.kts
  | true, _, _, _, _ =>
    ⟨ratTruncToInt ((penaltyCase.pro_timer_sec : ℚ) * staminaCoef), penaltyCase.pro_ratio⟩
  | false, _, _, _, _ =>
    ⟨ratTruncToInt ((penaltyCase.std_timer_sec : ℚ) * staminaCoef), penaltyCase.std_ratio⟩

/-- The loop body of the first phase of `Polar::get_boat_speeds`
(`src/src/polar/mod.rs:81-105`): bilinear interpolation of one sail, the
ratio and foil multipliers, the running maximum, and the pushed
`(sail, boat_speed, foil-u8)` triple. -/
def Polar.getBoatSpeedsStep (p : Polar) (twsIdx twaIdx : ℕ × ℕ × ℚ) (twa : ℚ)
    (windSpeed : Speed) (isInIceLimits : Bool)
    (acc : Speed × List (Sail × Speed × ℕ)) (sail : PolarSail) :
    Speed × List (Sail × Speed × ℕ) :=
  let ti0 := sail.speed.getD twaIdx.1 []
  let ti1 := sail.speed.getD twaIdx.2.1 []
  let bs0 : Speed := ⟨(ti0.getD twsIdx.1 0 * twsIdx.2.2 + ti0.getD twsIdx.2.1 0 * (1 - twsIdx.2.2)) * twaIdx.2.2
      + (ti1.getD twsIdx.1 0 * twsIdx.2.2 + ti1.getD twsIdx.2.1 0 * (1 - twsIdx.2.2)) * (1 - twaIdx.2.2),
      .knot⟩
  let bs1 := bs0.mulAssign p.global_speed_ratio
  let bs2 := if isInIceLimits then bs1.mulAssign p.ice_speed_ratio else bs1
  let bs3 := bs2.mulAssign p.hull.speed_ratio
  let foil := p.foilAmount twa windSpeed
  let bs4 := bs3.mulAssign foil
  let maxS := if acc.1.kts < bs4.kts then bs4 else acc.1
  (maxS, acc.2 ++ [(Sail.fromUsize sail.id, bs4,
    ratTruncToU8 ((foil - 1) * 100 / (p.foil.speed_ratio - 1)))])

/-- `src/src/polar/mod.rs:64-130` — `Polar::get_boat_speeds`.  The first loop
accumulates `(sail, boat_speed, foil-u8)` triples and the running maximum in
order; the second phase maps them to `PolarResult` and filters by `best`. -/
def Polar.getBoatSpeeds (p : Polar) (heading : Heading) (wind : Wind) (currentSail : Sail)
    (isInIceLimits : Bool) (all : Bool) : List PolarResult :=
  let twaRaw := heading.twa wind.direction
  let twaAbs := if twaRaw < 0 then -1 * twaRaw else twaRaw
  let twa := if twaAbs > 180 then 360 - twaAbs else twaAbs
  let twsIdx := Polar.interpolationIndex p.tws wind.speed.kts
  let twaIdx := Polar.interpolationIndex p.twa twa
  let acc := p.sail.foldl (p.getBoatSpeedsStep twsIdx twaIdx twa wind.speed isInIceLimits)
    (Speed.fromKts 0, [])
  let boatSpeedMax := acc.1
  (acc.2.map fun (sbf : Sail × Speed × ℕ) =>
    let s := sbf.1
    let boatSpeed := sbf.2.1
    let foil := sbf.2.2
    if s.id = currentSail.id then
      let boost := boatSpeedMax.kts / boatSpeed.kts
      if boost ≤ p.auto_sail_change_tolerance then
        ⟨s, boatSpeedMax, foil, ratTruncToU8 ((boost - 1) * 100 / (p.auto_sail_change_tolerance - 1)), 1⟩
      else ⟨s, boatSpeed, foil, 0, boatSpeed.kts / boatSpeedMax.kts⟩
    else
      (⟨s, boatSpeed, foil, 0, boatSpeed.kts / boatSpeedMax.kts⟩ : PolarResult)).filter
    fun r => decide (r.best ≥ if all then 0 else 1/2)

/-- `src/src/utils/mod.rs:339-348` — `Sub<&Distance>`: the right operand is
converted into the unit of the left one. -/
def Distance.subD (a b : Distance) : Distance := ⟨a.value - b.val a.unit, a.unit⟩

/-- `src/src/polar/mod.rs:414-436` — `Polar::distance`: integrate motion for
`dur` seconds under the pending penalties, consuming them in even penalty
steps.  Returns (distance, remaining penalties, effective speed, last ratio). -/
def Polar.distance (boatSpeed : Speed) (dur : ℤ) (penalties : Penalties) :
    Distance × Penalties × Speed × ℚ :=
  if hdur : dur = 0 then (Distance.fromM 0, penalties, boatSpeed, 1)
  else if ¬ penalties.isSome then (boatSpeed.mulDuration dur, penalties, boatSpeed, 1)
  else
    match hmin : penalties.minPenaltyDuration with
    | some pd0 =>
      let pd := min pd0 dur
      let nav := penalties.navigate pd
      let step := Polar.distance boatSpeed (dur - pd) nav.1
      let bs := boatSpeed.mulScalar nav.2
      ((bs.mulDuration pd).addD step.1, step.2.1, bs, nav.2)
    | none => (boatSpeed.mulDuration dur, penalties, boatSpeed, 1)
termination_by 4 * penalties.countSome + (if dur = 0 then 0 else 1)
decreasing_by
  simp only [if_neg hdur]
  have h1 := Penalties.countSome_navigate_le penalties (min pd0 dur)
  by_cases hz : dur - min pd0 dur = 0
  · rw [if_pos hz]
    omega
  · rw [if_neg hz]
    have hmin' : min pd0 dur = pd0 := by
      rcases min_cases pd0 dur with ⟨h2, _⟩ | ⟨h2, h3⟩
      · exact h2
      · omega
    have h2 : (penalties.navigate (min pd0 dur)).1.countSome < penalties.countSome := by
      rw [hmin']
      exact Penalties.countSome_navigate_min_lt penalties pd0 hmin
    omega

/-- `src/src/polar/mod.rs:438-459` — `Polar::duration`: the dual of
`Polar.distance`, consuming the ordered `to_vec` segments until the distance
is covered.  Returns (seconds, remaining penalties, effective speed, ratio). -/
def Polar.duration (boatSpeed : Speed) (distance : Distance) (penalties : Penalties) :
    ℤ × Penalties × Speed × ℚ :=
  match hv : penalties.toVec with
  | p0 :: _ =>
    let newBoatSpeed := boatSpeed.mulScalar p0.ratio
    if distance.leD (newBoatSpeed.mulDuration p0.duration) then
      let d := distance.divSpeed newBoatSpeed
      (d, penalties.subDuration d, newBoatSpeed, p0.ratio)
    else
      let step := Polar.duration boatSpeed (distance.subD (newBoatSpeed.mulDuration p0.duration))
        (penalties.subDuration p0.duration)
      (p0.duration + step.1, step.2.1, newBoatSpeed, p0.ratio)
  | [] => (distance.divSpeed boatSpeed, penalties, boatSpeed, 1)
termination_by penalties.countSome
decreasing_by
  exact Penalties.countSome_sub_head_lt penalties p0 _ hv

/-- `src/src/position.rs:17-20` — `struct Coords { lat, lon }`. -/
structure Coords : Type where
  lat : ℚ
  lon : ℚ
deriving DecidableEq

/-- The fields of `echeneis::Position` (`src/src/router/echeneis.rs:1122-1137`)
read by the frontier post-processing step of `navigate2`:
`point`, `from_dist`, `dist_to`, `status.boat_speed` and
`settings.sail.index`. -/
structure RouterPosition : Type where
  point : Coords
  from_dist : Distance
  dist_to : Distance
  boat_speed : Speed
  sail_index : ℕ
deriving DecidableEq

/-- `src/src/router/echeneis.rs` — `struct Alternative` holds
`variants: [Option<Position>; 8]`; modelled as a list of length 8. -/
structure Alternative : Type where
  variants : List (Option RouterPosition)
deriving DecidableEq

/-- The loop range `for s in 0..8` used throughout the router. -/
def slots8 : List ℕ := [0, 1, 2, 3, 4, 5, 6, 7]

/-- `src/src/router/echeneis.rs:1077-1091` — `Alternative::best`: the variant
with the largest `from_dist` (first seen wins ties), scanning slots 0..8. -/
def Alternative.best (a : Alternative) : Option RouterPosition :=
  slots8.foldl (fun best s =>
    match a.variants.getD s none with
    | some v =>
      match best with
      | none => some v
      | some b => if b.from_dist.ltD v.from_dist then some v else some b
    | none => best) none

/-- Count of non-empty variants of one alternative
(`src/src/router/echeneis.rs:636-638`). -/
def Alternative.countVariants (a : Alternative) : ℤ :=
  ((a.variants.filter (fun v => v.isSome)).length : ℤ)

/-- One triangle test of `Buoy::is_to_avoid`
(`src/src/router/echeneis.rs:1307-1322`): the point is inside when the second
orientation sign differs from `s_ab` and the third equals it. -/
def triangleHits (t : Coords × Coords × Coords) (point : Coords) : Bool :=
  let asx := point.lat - t.1.lat
  let asy := point.lon - t.1.lon
  let sab := decide ((t.2.1.lat - t.1.lat) * asy - (t.2.1.lon - t.1.lon) * asx > 0)
  let c2 := decide ((t.2.2.lat - t.1.lat) * asy - (t.2.2.lon - t.1.lon) * asx > 0)
  let c3 := decide ((t.2.2.lat - t.2.1.lat) * (point.lon - t.2.1.lon)
    - (t.2.2.lon - t.2.1.lon) * (point.lat - t.2.1.lat) > 0)
  (c2 != sab) && (c3 == sab)

/-- `src/src/router/echeneis.rs:1300-1325` — `Buoy::is_to_avoid`, over the
to-avoid triangle list of the buoy. -/
def isToAvoid (toAvoids : List (Coords × Coords × Coords)) (point : Coords) : Bool :=
  toAvoids.any (fun t => triangleHits t point)

/-- The router state `max: BTreeMap<i32, [Distance; 8]>`
(`src/src/router/echeneis.rs:595`), modelled as an association list. -/
def MaxMap : Type := List (ℤ × List Distance)

/-- `BTreeMap::get`. -/
def maxLookup : MaxMap → ℤ → Option (List Distance)
  | [], _ => none
  | (k, w) :: rest, az => if k = az then some w else maxLookup rest az

/-- `max.entry(az).or_insert_with(|| [zero; 8])[s] = v`
(`src/src/router/echeneis.rs:695`). -/
def maxSet : MaxMap → ℤ → ℕ → Distance → MaxMap
  | [], az, s, v => [(az, (List.replicate 8 Distance.zero).set s v)]
  | (k, w) :: rest, az, s, v =>
    if k = az then (k, w.set s v) :: rest else (k, w) :: maxSet rest az s v

/-- Numeric view of a `max` cell, in meters; missing entries and missing slots
read as zero (matching `d.get(s).unwrap_or(&Distance::zero())`). -/
def maxGetQ (mm : MaxMap) (az : ℤ) (s : ℕ) : ℚ :=
  match maxLookup mm az with
  | some w => (w.getD s Distance.zero).m
  | none => 0

/-- One iteration of the per-slot filter loop of `navigate2` post-processing
(`src/src/router/echeneis.rs:658-699`): to-avoid test, route-envelope test,
far-from-minimum test, dominated test, then the high-water-mark write
`max[az][s] = from_dist * 1.001`.  The threaded state is
(variants, size, max map). -/
def processSlot (toAvoids : List (Coords × Coords × Coords)) (maxRadius : Distance)
    (doubleMin : Option Distance) (az : ℤ) (bestFromDist : Distance)
    (st : List (Option RouterPosition) × ℤ × MaxMap) (s : ℕ) :
    List (Option RouterPosition) × ℤ × MaxMap :=
  match st.1.getD s none with
  | some pos =>
    if isToAvoid toAvoids pos.point then (st.1.set s none, st.2.1 - 1, st.2.2)
    else if pos.from_dist.m + pos.dist_to.m > maxRadius.m then (st.1.set s none, st.2.1 - 1, st.2.2)
    else if (match doubleMin with
             | some dm => decide (25 < st.2.1) && decide (dm.ltD pos.dist_to)
             | none => false) then (st.1.set s none, st.2.1 - 1, st.2.2)
    else if (pos.from_dist.addD (pos.boat_speed.mulDuration 18000)).ltD bestFromDist then
      (st.1.set s none, st.2.1 - 1, st.2.2)
    else (st.1, st.2.1, maxSet st.2.2 az s (pos.from_dist.mulScalar (1001/1000)))
  | none => st

/-- One iteration of the per-alternative loop of `navigate2` post-processing
(`src/src/router/echeneis.rs:642-701`): the regression guard compares the best
variant of the alternative against `max[az][best_sail]` (the sail index of the
best variant) and on regression clears the whole alternative, otherwise the
slot loop runs.  State is (processed list, size, max map). -/
def processAlternative (toAvoids : List (Coords × Coords × Coords)) (maxRadius : Distance)
    (doubleMin : Option Distance)
    (st : List (ℤ × Alternative) × ℤ × MaxMap) (entry : ℤ × Alternative) :
    List (ℤ × Alternative) × ℤ × MaxMap :=
  let az := entry.1
  let alt := entry.2
  let bestFromDist := (alt.best.map (fun b => b.from_dist)).getD Distance.zero
  let bestSail := (alt.best.map (fun b => b.sail_index)).getD 0
  if (match maxLookup st.2.2 az with
      | some d => decide (bestFromDist.ltD (d.getD bestSail Distance.zero))
      | none => false) then
    let cleared := slots8.foldl (fun (c : List (Option RouterPosition) × ℤ) s =>
      if (c.1.getD s none).isSome then (c.1.set s none, c.2 - 1) else c) (alt.variants, st.2.1)
    (st.1 ++ [(az, ⟨cleared.1⟩)], cleared.2, st.2.2)
  else
    let res := slots8.foldl (processSlot toAvoids maxRadius doubleMin az bestFromDist)
      (alt.variants, st.2.1, st.2.2)
    (st.1 ++ [(az, ⟨res.1⟩)], res.2.1, res.2.2)

/-- `src/src/router/echeneis.rs:633-712` — the non-reached branch of the
frontier post-processing in `navigate2`: compute the frontier size and the
doubled minimum, run the per-alternative loop threading `size` and `max`, then
retain only the alternatives that kept a variant.  Returns the surviving
alternatives and the updated `max` map.  (The subsequent door-crossing and
ancestry passes do not touch `max`.) -/
def processNav (toAvoids : List (Coords × Coords × Coords)) (maxRadius : Distance)
    (navMin : Option Distance) (alts : List (ℤ × Alternative)) (mm : MaxMap) :
    List (ℤ × Alternative) × MaxMap :=
  let size : ℤ := alts.foldl (fun acc e => acc + e.2.countVariants) 0
  let doubleMin := navMin.map (fun mn => mn.mulScalar 2)
  let res := alts.foldl (processAlternative toAvoids maxRadius doubleMin) ([], size, mm)
  (res.1.filter (fun e => slots8.any (fun s => (e.2.variants.getD s none).isSome)), res.2.2)

/-- `src/src/wind/providers/vr.rs:304-313` — the clamping tail of
`<VrInstantWind as InstantWind>::interpolate`: `magKmH` stands for the value
`(u*u + v*v).sqrt()`, the km/h magnitude of the interpolated wind vector; the
resulting speed is floored at `Speed::MIN` (2 kt). -/
def vrInstantWindSpeed (magKmH : ℚ) : Speed :=
  let d := Speed.fromKmH magKmH
  if d.ltS Speed.MIN then Speed.MIN else d

/-- A concrete polar for the counterexamples: one sail whose table is
constant 10 kt, foil ramp TWA 80..160 (merge 10) and TWS 16..35 (merge 4)
with `speed_ratio` 1.04, winch boundaries `lws = 10`, `hws = 20`, and a tack
penalty case with std boundaries (ratio 0, timer 0) at low wind and
(ratio 1, timer 16) at high wind. -/
def testPolar : Polar where
  id := 1
  label := "test"
  global_speed_ratio := 1
  ice_speed_ratio := 1/2
  auto_sail_change_tolerance := 6/5
  bad_sail_tolerance := 7/10
  max_speed := 30
  foil := ⟨26/25, 80, 160, 10, 16, 35, 4⟩
  hull := ⟨1⟩
  winch :=
    ⟨⟨120, 1/2, 60, 3/4, some ⟨⟨0, 0⟩, ⟨1, 16⟩⟩, none⟩,
     ⟨120, 1/2, 60, 3/4, none, none⟩,
     ⟨300, 1/2, 150, 3/4, none, none⟩,
     some 10, some 20⟩
  tws := [0, 10, 20, 30]
  twa := [0, 90, 180]
  sail := [⟨1, "pol", [[10, 10, 10, 10], [10, 10, 10, 10], [10, 10, 10, 10]]⟩]

/-- `BoatOptions` with every option off. -/
def optsPlain : BoatOptions := ⟨false, false, false, false, false, false, false⟩

/-- The current sail used in the counterexamples (index 0, id 1). -/
def currentSail0 : Sail := Sail.fromIndex 0

/-- Prior high-water-mark map for the C3 counterexample:
`max[5][0] = 100 m`. -/
def c3MaxMap0 : MaxMap :=
  [(5, [Distance.fromM 100, Distance.zero, Distance.zero, Distance.zero,
    Distance.zero, Distance.zero, Distance.zero, Distance.zero])]

/-- Frontier node for the C3 counterexample: stored in slot 0 (as `merge_fast`
does) but carrying sail index 3, with `from_dist = 50 m`. -/
def c3Pos : RouterPosition :=
  ⟨⟨0, 0⟩, Distance.fromM 50, Distance.fromM 10, Speed.fromMS 1, 3⟩

/-- The single-variant alternative holding `c3Pos`. -/
def c3Alt : Alternative :=
  ⟨[some c3Pos, none, none, none, none, none, none, none]⟩

/-- Penalties value for the C6 witness. -/
def c6P : Penalties := ⟨some ⟨5, 1/2⟩, none, some ⟨7, 3/4⟩⟩

/-! ### Supporting lemmas about the embedded operations -/

/-- Truncation toward zero is the identity on integers. -/
lemma ratTruncToInt_intCast (n : ℤ) : ratTruncToInt (n : ℚ) = n := by
  unfold ratTruncToInt
  split_ifs <;> simp

/-- The de Casteljau expression of `Polar::interpolation` is the cubic
smoothstep between `y1` and `y2`: with `t = (x-x1)/(x2-x1)` it equals
`y1 + (y2-y1) * (t^2 * (3 - 2t))`, not the linear interpolation
`y1 + (y2-y1) * t`. -/
lemma interpolation_smoothstep (x1 x2 y1 y2 x : ℚ) :
    Polar.interpolation x1 x2 y1 y2 x =
      y1 + (y2 - y1) * (((x - x1) / (x2 - x1)) ^ 2 * (3 - 2 * ((x - x1) / (x2 - x1)))) := by
  unfold Polar.interpolation
  ring

/-- Unfolding of `Polar.distance` when no penalty is active
(`src/src/polar/mod.rs:416-421`). -/
lemma Polar.distance_not_some (v : Speed) (d : ℤ) (p : Penalties) (hp : ¬ p.isSome = true) :
    Polar.distance v d p =
      if d = 0 then (Distance.fromM 0, p, v, 1) else (v.mulDuration d, p, v, 1) := by
  unfold Polar.distance
  split_ifs with h1 h2 <;> first | rfl | (exact absurd h2 (by simp_all))

/-- Unfolding of `Polar.duration` when `to_vec` is empty
(`src/src/polar/mod.rs:458`). -/
lemma Polar.duration_toVec_nil (v : Speed) (dist : Distance) (p : Penalties)
    (h : p.toVec = []) :
    Polar.duration v dist p = (dist.divSpeed v, p, v, 1) := by
  unfold Polar.duration
  split
  · next p0 rest hv =>
    rw [h] at hv
    exact absurd hv (by simp)
  · rfl

/-- The empty `Penalties` value has no active penalty and an empty `to_vec`. -/
lemma Penalties.new_not_some : ¬ Penalties.new.isSome = true := by
  simp [Penalties.new, Penalties.isSome]

/-- `to_vec` of the empty `Penalties` value. -/
lemma Penalties.new_toVec : Penalties.new.toVec = [] := rfl

/-! ### C4 — heading / TWA congruences -/

/-- C4 (counterexample): the claimed congruence
`HEADING(h).twa(twd) + (twd - h) ≡ 0 (mod 360)` fails at `h = 0`,
`twd = 90` (both in `[0,360)`): the left side is `180`, which is not a
multiple of `360`.  (Since `twa(twd) ≡ twd - h`, the claimed sum is
`2(twd - h) mod 360`.) -/
theorem C4_counterexample :
    (Heading.HEADING 0).twa 90 + (90 - 0) = 180 ∧
    ¬ ∃ k : ℤ, ((Heading.HEADING 0).twa 90 + (90 - 0) : ℚ) = 360 * k := by
  have hv : (Heading.HEADING 0).twa 90 = 90 := by norm_num [Heading.twa]
  constructor
  · rw [hv]; norm_num
  · rintro ⟨k, hk⟩
    rw [hv] at hk
    have h2 : ((360 * k : ℤ) : ℚ) = 180 := by push_cast; linarith
    have h3 : (360 * k : ℤ) = 180 := by exact_mod_cast h2
    omega

/-- The compass-to-TWA projection: `twa ≡ twd - h (mod 360)` with the result
in `(-180, 180]`. -/
lemma heading_twa_wrap (h twd : ℚ) (hh0 : 0 ≤ h) (hh1 : h < 360)
    (ht0 : 0 ≤ twd) (ht1 : twd < 360) :
    (∃ k : ℤ, (Heading.HEADING h).twa twd - (twd - h) = 360 * k) ∧
    -180 < (Heading.HEADING h).twa twd ∧ (Heading.HEADING h).twa twd ≤ 180 := by
  simp only [Heading.twa]
  split_ifs with h1 h2 h3
  · exact ⟨⟨0, by push_cast; ring⟩, by linarith, by linarith⟩
  · exact ⟨⟨1, by push_cast; ring⟩, by linarith, by linarith⟩
  · exact ⟨⟨-1, by push_cast; ring⟩, by linarith, by linarith⟩
  · exact ⟨⟨0, by push_cast; ring⟩, by linarith, by linarith⟩

/-- The TWA-to-compass projection: `heading ≡ twd - t (mod 360)` with the
result in `[0, 360)`. -/
lemma heading_heading_wrap (t twd : ℚ) (ht0 : 0 ≤ twd) (ht1 : twd < 360)
    (htw0 : -180 < t) (htw1 : t ≤ 180) :
    (∃ k : ℤ, (Heading.TWA t).heading twd - (twd - t) = 360 * k) ∧
    0 ≤ (Heading.TWA t).heading twd ∧ (Heading.TWA t).heading twd < 360 := by
  simp only [Heading.heading]
  split_ifs with h1 h2 h3
  · exact ⟨⟨0, by push_cast; ring⟩, by linarith, by linarith⟩
  · exact ⟨⟨1, by push_cast; ring⟩, by linarith, by linarith⟩
  · exact ⟨⟨-1, by push_cast; ring⟩, by linarith, by linarith⟩
  · exact ⟨⟨0, by push_cast; ring⟩, by linarith, by linarith⟩

/-- C4 (amended): with the sign fixed, for `h, twd ∈ [0,360)` and
`t ∈ (-180,180]`, `HEADING(h).twa(twd) - (twd - h) ≡ 0 (mod 360)` with the
result in `(-180,180]`, and `TWA(t).heading(twd) - (twd - t) ≡ 0 (mod 360)`
with the result in `[0,360)`.  (The claim as frozen adds instead of
subtracting `twd - h`, which gives `2(twd - h) mod 360`.) -/
theorem C4_twa_heading_congruences (h twd t : ℚ) (hh0 : 0 ≤ h) (hh1 : h < 360)
    (ht0 : 0 ≤ twd) (ht1 : twd < 360) (htw0 : -180 < t) (htw1 : t ≤ 180) :
    ((∃ k : ℤ, (Heading.HEADING h).twa twd - (twd - h) = 360 * k) ∧
      -180 < (Heading.HEADING h).twa twd ∧ (Heading.HEADING h).twa twd ≤ 180) ∧
    ((∃ k : ℤ, (Heading.TWA t).heading twd - (twd - t) = 360 * k) ∧
      0 ≤ (Heading.TWA t).heading twd ∧ (Heading.TWA t).heading twd < 360) :=
  ⟨heading_twa_wrap h twd hh0 hh1 ht0 ht1, heading_heading_wrap t twd ht0 ht1 htw0 htw1⟩

/-- C4 witness at `h = 350`, `twd = 10`, `t = 180`. -/
theorem C4_witness :
    (((∃ k : ℤ, (Heading.HEADING 350).twa 10 - (10 - 350) = 360 * k) ∧
      -180 < (Heading.HEADING 350).twa 10 ∧ (Heading.HEADING 350).twa 10 ≤ 180) ∧
    ((∃ k : ℤ, (Heading.TWA 180).heading 10 - (10 - 180) = 360 * k) ∧
      0 ≤ (Heading.TWA 180).heading 10 ∧ (Heading.TWA 180).heading 10 < 360)) ∧
    (Heading.HEADING 350).twa 10 = 20 ∧ (Heading.TWA 180).heading 10 = 190 :=
  ⟨C4_twa_heading_congruences 350 10 180 (by norm_num) (by norm_num) (by norm_num)
      (by norm_num) (by norm_num) (by norm_num),
   by norm_num [Heading.twa], by norm_num [Heading.heading]⟩

/-! ### C6 — penalties: minimum vs maximum, subtraction -/

/-- C6: for every `Penalties` value, `min_penalty_duration()` (when present)
is at most `duration()`, and subtracting any `d ≥ duration()` leaves every
component `None`. -/
theorem C6_min_le_duration_and_sub_zeroes (p : Penalties) :
    (∀ m : ℤ, p.minPenaltyDuration = some m → m ≤ p.duration) ∧
    (∀ d : ℤ, p.duration ≤ d →
      (p.subDuration d).gybe = none ∧ (p.subDuration d).sail_change = none ∧
        (p.subDuration d).tack = none) := by
  rcases p with ⟨g, s, t⟩
  constructor
  · intro m hm
    rcases g with _ | ⟨gd, gr⟩ <;> rcases s with _ | ⟨sd, sr⟩ <;> rcases t with _ | ⟨td, tr⟩ <;>
      simp only [Penalties.minPenaltyDuration, Penalties.updMinOpt, Penalties.updMin_min,
        Option.some.injEq, Penalties.duration] at hm ⊢ <;>
      (try simp at hm) <;> omega
  · intro d hd
    rcases g with _ | ⟨gd, gr⟩ <;> rcases s with _ | ⟨sd, sr⟩ <;> rcases t with _ | ⟨td, tr⟩ <;>
      simp only [Penalties.duration] at hd <;>
      simp only [Penalties.subDuration, Option.bind, Option.none_bind, Option.some_bind] <;>
      refine ⟨?_, ?_, ?_⟩ <;> (try split_ifs) <;> simp_all <;> omega

/-- C6 witness at `gybe = (5s, 1/2)`, `tack = (7s, 3/4)`. -/
theorem C6_witness :
    c6P.minPenaltyDuration = some 5 ∧ (5 : ℤ) ≤ c6P.duration ∧
      ((c6P.subDuration 7).gybe = none ∧ (c6P.subDuration 7).sail_change = none ∧
        (c6P.subDuration 7).tack = none) :=
  ⟨by norm_num [Penalties.minPenaltyDuration, Penalties.updMinOpt, Penalties.updMin, c6P],
   (C6_min_le_duration_and_sub_zeroes c6P).1 5
     (by norm_num [Penalties.minPenaltyDuration, Penalties.updMinOpt, Penalties.updMin, c6P]),
   (C6_min_le_duration_and_sub_zeroes c6P).2 7 (by norm_num [Penalties.duration, c6P])⟩

/-! ### C7 — distance/duration round trip without penalties -/

/-- C7: with no pending penalties and a strictly positive boat speed, the
round trip `Polar::duration(v, Polar::distance(v, d, ∅).0, ∅).0` returns
exactly `d` (so in particular within the one-second granularity stated by the
claim). -/
theorem C7_distance_duration_roundtrip (v : Speed) (d : ℤ) (hv : 0 < v.m_s) :
    (Polar.duration v (Polar.distance v d Penalties.new).1 Penalties.new).1 = d := by
  rw [Polar.distance_not_some v d _ Penalties.new_not_some]
  by_cases hd : d = 0
  · rw [if_pos hd, Polar.duration_toVec_nil _ _ _ Penalties.new_toVec]
    simp only [Distance.divSpeed, Distance.fromM, Distance.m]
    rw [if_neg (ne_of_gt hv)]
    rw [zero_div]
    rw [show ratTruncToInt 0 = ((0 : ℤ) : ℤ) from by norm_num [ratTruncToInt]]
    omega
  · rw [if_neg hd, Polar.duration_toVec_nil _ _ _ Penalties.new_toVec]
    simp only [Distance.divSpeed, Speed.mulDuration, Distance.m]
    rw [if_neg (ne_of_gt hv)]
    rw [mul_div_cancel_left₀ _ (ne_of_gt hv)]
    exact ratTruncToInt_intCast d

/-- C7 witness at `v = 10 kt`, `d = 3600 s`. -/
theorem C7_witness :
    (Polar.duration (Speed.fromKts 10)
      (Polar.distance (Speed.fromKts 10) 3600 Penalties.new).1 Penalties.new).1 = 3600 :=
  C7_distance_duration_roundtrip (Speed.fromKts 10) 3600
    (by norm_num [Speed.m_s, Speed.fromKts])

/-! ### C8 — total division of distance by speed -/

/-- Zero `m_s` is equivalent to zero raw value, whatever the unit. -/
lemma Speed.m_s_eq_zero_iff (s : Speed) : s.m_s = 0 ↔ s.value = 0 := by
  rcases s with ⟨val, u⟩
  cases u <;> simp only [Speed.m_s] <;> constructor <;> intro h <;>
    first | (field_simp at h; linarith) | (rw [h]; norm_num)

/-- C8: `Distance / Speed` is total: at zero speed it returns
`Duration::max_value()` instead of failing, otherwise
`Duration::seconds((m / m_s) as i64)`. -/
theorem C8_div_speed_total (d : Distance) (s : Speed) :
    (s.value = 0 → d.divSpeed s = durationMaxValueSecs) ∧
    (s.value ≠ 0 → d.divSpeed s = ratTruncToInt (d.m / s.m_s)) := by
  constructor
  · intro h0
    unfold Distance.divSpeed
    rw [if_pos ((Speed.m_s_eq_zero_iff s).mpr h0)]
  · intro hne
    unfold Distance.divSpeed
    rw [if_neg (fun hz => hne ((Speed.m_s_eq_zero_iff s).mp hz))]

/-- C8 witness: `100 m / 0 m·s⁻¹` is the maximal duration and
`100 m / 4 m·s⁻¹` is 25 s. -/
theorem C8_witness :
    (Distance.fromM 100).divSpeed (Speed.fromMS 0) = durationMaxValueSecs ∧
    (Distance.fromM 100).divSpeed (Speed.fromMS 4) =
      ratTruncToInt ((Distance.fromM 100).m / (Speed.fromMS 4).m_s) ∧
    ratTruncToInt ((Distance.fromM 100).m / (Speed.fromMS 4).m_s) = 25 :=
  ⟨(C8_div_speed_total (Distance.fromM 100) (Speed.fromMS 0)).1 rfl,
   (C8_div_speed_total (Distance.fromM 100) (Speed.fromMS 4)).2 (by norm_num [Speed.fromMS]),
   by norm_num [ratTruncToInt, Distance.fromM, Distance.m, Speed.fromMS, Speed.m_s]⟩

/-! ### C9 — 2 kt wind floor -/

/-- C9: the instant-wind interpolation never returns less than 2 kt, and
whenever the interpolated vector magnitude is below 2 kt the result is
exactly `Speed::MIN`. -/
theorem C9_wind_speed_floor (mag : ℚ) :
    2 ≤ (vrInstantWindSpeed mag).kts ∧
    ((Speed.fromKmH mag).kts < 2 → vrInstantWindSpeed mag = Speed.MIN) := by
  simp only [vrInstantWindSpeed]
  split_ifs with h
  · exact ⟨by norm_num [Speed.MIN, Speed.kts], fun _ => rfl⟩
  · simp only [Speed.ltS, Speed.MIN, Speed.kts, Speed.fromKmH] at h ⊢
    exact ⟨not_lt.mp h, fun h2 => absurd h2 h⟩

/-- C9 witness at zero wind. -/
theorem C9_witness :
    vrInstantWindSpeed 0 = Speed.MIN ∧ 2 ≤ (vrInstantWindSpeed 0).kts :=
  ⟨(C9_wind_speed_floor 0).2 (by norm_num [Speed.fromKmH, Speed.kts]),
   (C9_wind_speed_floor 0).1⟩

/-! ### C1 — penalty interpolation between the wind boundaries -/

/-- C1 (counterexample): with boundaries `(lws, hws) = (10, 20)`, a std case
with low bound (ratio 0, timer 0) and high bound (ratio 1, timer 16), at wind
speed 12.5 kt (strictly between the boundaries, `t = 1/4`) and stamina off,
`get_penalty_values` returns ratio `5/32` and 2 s, while plain linear
interpolation gives ratio `1/4` and 4 s. -/
theorem C1_counterexample :
    testPolar.getPenaltyValues optsPlain testPolar.winch.tack (Speed.fromKts (25/2)) 100 =
      ⟨2, 5/32⟩ ∧
    ((5 : ℚ)/32 ≠ 0 + (1 - 0) * (((25 : ℚ)/2 - 10) / (20 - 10))) ∧
    ((2 : ℤ) ≠ ratTruncToInt ((0 : ℚ) + (16 - 0) * (((25 : ℚ)/2 - 10) / (20 - 10)))) := by
  refine ⟨?_, by norm_num, ?_⟩
  · norm_num [Polar.getPenaltyValues, Polar.penaltyFromBounds, Polar.interpolation,
      ratTruncToInt, testPolar, optsPlain, Speed.kts, Speed.fromKts]
  · norm_num [ratTruncToInt]

/-- C1 (amended): for a penalty case with boundaries available (`pro` when
`winch` is set, else `std`) and wind speed strictly between `lws` and `hws`,
`get_penalty_values` returns the cubic-smoothstep interpolation
`y1 + (y2-y1)·t²(3-2t)` with `t = (ws-lws)/(hws-lws)` — for the ratio exactly,
and for the timer seconds after the stamina coefficient and the truncating
`as i64` cast.  It agrees with plain linear interpolation only where
`t²(3-2t) = t`. -/
theorem C1_penalty_interpolation_smoothstep (p : Polar) (opts : BoatOptions)
    (pc : PenaltyCase) (ws : Speed) (st : ℚ) (lws hws : ℕ) (bnd : PenaltyBoundaries)
    (hlws : p.winch.lws = some lws) (hhws : p.winch.hws = some hws)
    (hbnd : (if opts.winch then pc.pro else pc.std) = some bnd)
    (hlo : (lws : ℚ) < ws.kts) (hhi : ws.kts < (hws : ℚ)) :
    p.getPenaltyValues opts pc ws st =
      ⟨ratTruncToInt
          (((bnd.lw.timer : ℚ) + ((bnd.hw.timer : ℚ) - (bnd.lw.timer : ℚ)) *
              (((ws.kts - (lws : ℚ)) / ((hws : ℚ) - (lws : ℚ))) ^ 2 *
                (3 - 2 * ((ws.kts - (lws : ℚ)) / ((hws : ℚ) - (lws : ℚ)))))) *
            (match opts.stamina with
             | false => 1
             | true => 1/2 + (100 - st) / 100 * (3/2))),
       bnd.lw.ratio + (bnd.hw.ratio - bnd.lw.ratio) *
          (((ws.kts - (lws : ℚ)) / ((hws : ℚ) - (lws : ℚ))) ^ 2 *
            (3 - 2 * ((ws.kts - (lws : ℚ)) / ((hws : ℚ) - (lws : ℚ)))))⟩ := by
  unfold Polar.getPenaltyValues
  cases hw : opts.winch
  · rw [hw] at hbnd
    simp at hbnd
    rw [hlws, hhws, hbnd]
    dsimp only
    unfold Polar.penaltyFromBounds
    rw [if_neg (not_le.mpr hlo), if_neg (not_le.mpr hhi)]
    rw [interpolation_smoothstep, interpolation_smoothstep]
  · rw [hw] at hbnd
    simp at hbnd
    rw [hlws, hhws, hbnd]
    dsimp only
    unfold Polar.penaltyFromBounds
    rw [if_neg (not_le.mpr hlo), if_neg (not_le.mpr hhi)]
    rw [interpolation_smoothstep, interpolation_smoothstep]

/-- C1 witness: the amended theorem applied at the concrete data of the
counterexample reproduces the value the code computes. -/
theorem C1_witness :
    testPolar.getPenaltyValues optsPlain testPolar.winch.tack (Speed.fromKts (25/2)) 100 =
      ⟨2, 5/32⟩ := by
  have h := C1_penalty_interpolation_smoothstep testPolar optsPlain testPolar.winch.tack
    (Speed.fromKts (25/2)) 100 10 20 ⟨⟨0, 0⟩, ⟨1, 16⟩⟩
    (by norm_num [testPolar]) (by norm_num [testPolar]) (by norm_num [optsPlain, testPolar])
    (by norm_num [Speed.kts, Speed.fromKts]) (by norm_num [Speed.kts, Speed.fromKts])
  rw [h]
  norm_num [Speed.kts, Speed.fromKts, ratTruncToInt, optsPlain]

/-! ### C2 — foil amount above the TWS envelope -/

/-- C2: at TWA 100° (inside the full-foil TWA band) and 40 kt of wind, which
is at least `tws_max + tws_merge = 39`, `foil_amount` returns
`1 + (speed_ratio - 1) = 1.04`, not 1: the final arm of the TWS ramp yields
the coefficient `cv = 1.0` instead of the early `return 1.0` used by the
symmetric TWA arm, so beyond the envelope the foil bonus turns fully back on
after having ramped down to 0 just below `tws_max + tws_merge`. -/
theorem C2_foil_amount_above_envelope :
    testPolar.foilAmount 100 (Speed.fromKts 40) = 26/25 ∧
    ((26 : ℚ)/25 ≠ 1) ∧
    (40 : ℚ) ≥ testPolar.foil.tws_max + testPolar.foil.tws_merge := by
  refine ⟨?_, by norm_num, by norm_num [testPolar]⟩
  norm_num [Polar.foilAmount, testPolar, Speed.kts, Speed.fromKts]

/-! ### C10 — table clamping beyond the last TWS column -/

/-- The scan loop exits at `(len-1, 0, 1.0)` when every remaining entry is
below the probed value. -/
lemma interpGo_all_lt (value : ℚ) (rest : List ℚ) : ∀ (prev : ℚ) (j : ℕ),
    (∀ x ∈ rest, x < value) → interpGo value prev j rest = (j + rest.length, 0, 1) := by
  induction rest with
  | nil => intro prev j _; simp [interpGo]
  | cons v1 tl ih =>
    intro prev j h
    simp only [interpGo]
    rw [if_pos (h v1 (List.mem_cons_self v1 tl))]
    rw [ih v1 (j + 1) (fun x hx => h x (List.mem_cons_of_mem _ hx))]
    simp only [List.length_cons, Prod.mk.injEq, and_true]
    omega

/-- `Polar::interpolation_index` on a value above every table entry returns
`(last_index, 0, 1.0)`. -/
lemma interpolationIndex_all_lt (values : List ℚ) (value : ℚ) (hne : values ≠ [])
    (h : ∀ x ∈ values, x < value) :
    Polar.interpolationIndex values value = (values.length - 1, 0, 1) := by
  cases values with
  | nil => exact absurd rfl hne
  | cons v0 rest =>
    simp only [Polar.interpolationIndex]
    rw [if_pos (h v0 (List.mem_cons_self v0 rest))]
    rw [interpGo_all_lt value rest v0 0 (fun x hx => h x (List.mem_cons_of_mem _ hx))]
    simp

/-- The scan loop probed with the last element of a strictly increasing list
stops just before it with interpolation factor 0. -/
lemma interpGo_getLast : ∀ (rest : List ℚ) (hne : rest ≠ []) (prev : ℚ) (j : ℕ),
    List.Pairwise (· < ·) rest →
    interpGo (rest.getLast hne) prev j rest = (j + rest.length - 1, j + rest.length, 0)
  | [x], _, prev, j, _ => by
    simp [interpGo, List.getLast, sub_self]
  | x :: y :: tl, hne, prev, j, hp => by
    have h1 : ∀ b ∈ y :: tl, x < b := (List.pairwise_cons.mp hp).1
    have h2 : List.Pairwise (· < ·) (y :: tl) := (List.pairwise_cons.mp hp).2
    have hg : (x :: y :: tl).getLast hne = (y :: tl).getLast (by simp) :=
      List.getLast_cons (by simp)
    have hxlt : x < (x :: y :: tl).getLast hne := by
      rw [hg]; exact h1 _ (List.getLast_mem (by simp))
    rw [interpGo, if_pos hxlt, hg, interpGo_getLast (y :: tl) (by simp) x (j + 1) h2]
    simp only [List.length_cons, Prod.mk.injEq, and_true]
    omega

/-- `Polar::interpolation_index` probed with the last entry of a strictly
increasing table: `(0,0,0)` on a one-entry table, otherwise
`(len-2, len-1, 0.0)` — in both cases the effective weight sits entirely on
the last column, as it does for any larger value. -/
lemma interpolationIndex_getLast (values : List ℚ) (hne : values ≠ [])
    (hp : List.Pairwise (· < ·) values) :
    Polar.interpolationIndex values (values.getLast hne) =
      if values.length = 1 then (0, 0, 0)
      else (values.length - 2, values.length - 1, 0) := by
  cases values with
  | nil => exact absurd rfl hne
  | cons v0 rest =>
    cases rest with
    | nil => simp [Polar.interpolationIndex, List.getLast]
    | cons r0 tl =>
      have h1 : ∀ b ∈ r0 :: tl, v0 < b := (List.pairwise_cons.mp hp).1
      have hg : (v0 :: r0 :: tl).getLast hne = (r0 :: tl).getLast (by simp) :=
        List.getLast_cons (by simp)
      simp only [Polar.interpolationIndex]
      rw [if_pos (by rw [hg]; exact h1 _ (List.getLast_mem (by simp)))]
      rw [hg, interpGo_getLast (r0 :: tl) (by simp) v0 0 (List.pairwise_cons.mp hp).2]
      rw [if_neg (by simp)]
      simp only [List.length_cons, Prod.mk.injEq, and_true]
      exact ⟨by omega, by omega⟩

/-- `get_boat_speeds` depends on the wind only through the direction, the
effective TWS interpolation weights, and the foil amount: if those agree for
two winds, the outputs agree. -/
lemma getBoatSpeeds_wind_congr (p : Polar) (heading : Heading) (w1 w2 : Wind)
    (cs : Sail) (ice all : Bool)
    (hdir : w1.direction = w2.direction)
    (hw : ∀ ti : List ℚ,
      ti.getD (Polar.interpolationIndex p.tws w1.speed.kts).1 0 *
          (Polar.interpolationIndex p.tws w1.speed.kts).2.2 +
        ti.getD (Polar.interpolationIndex p.tws w1.speed.kts).2.1 0 *
          (1 - (Polar.interpolationIndex p.tws w1.speed.kts).2.2) =
      ti.getD (Polar.interpolationIndex p.tws w2.speed.kts).1 0 *
          (Polar.interpolationIndex p.tws w2.speed.kts).2.2 +
        ti.getD (Polar.interpolationIndex p.tws w2.speed.kts).2.1 0 *
          (1 - (Polar.interpolationIndex p.tws w2.speed.kts).2.2))
    (hf : ∀ t : ℚ, p.foilAmount t w1.speed = p.foilAmount t w2.speed) :
    p.getBoatSpeeds heading w1 cs ice all = p.getBoatSpeeds heading w2 cs ice all := by
  unfold Polar.getBoatSpeeds
  rw [hdir]
  have hacc : ∀ (twaIdx : ℕ × ℕ × ℚ) (twa : ℚ),
      p.sail.foldl
        (p.getBoatSpeedsStep (Polar.interpolationIndex p.tws w1.speed.kts) twaIdx twa
          w1.speed ice) (Speed.fromKts 0, []) =
      p.sail.foldl
        (p.getBoatSpeedsStep (Polar.interpolationIndex p.tws w2.speed.kts) twaIdx twa
          w2.speed ice) (Speed.fromKts 0, []) := by
    intro twaIdx twa
    apply List.foldl_ext
    intro acc sail _
    unfold Polar.getBoatSpeedsStep
    dsimp only
    rw [hf twa, hw (sail.speed.getD twaIdx.1 []), hw (sail.speed.getD twaIdx.2.1 [])]
  dsimp only
  rw [hacc]

/-- C10 (amended): for a wind speed strictly above every entry of a non-empty,
strictly increasing TWS table, `interpolation_index` returns
`(last_index, 0, 1.0)`, and `get_boat_speeds` produces exactly the results it
produces at the maximum table TWS whenever the foil amount also agrees between
the two wind speeds.  (Without that proviso the outputs can differ: the foil
ramp reads the actual wind speed, not the clamped table column — see the
counterexample.) -/
theorem C10_interpolation_clamps_at_table_edge (p : Polar) (v : ℚ)
    (hne : p.tws ≠ []) (hp : List.Pairwise (· < ·) p.tws)
    (hgt : ∀ x ∈ p.tws, x < v)
    (heading : Heading) (dir : ℚ) (cs : Sail) (ice all : Bool)
    (hf : ∀ t : ℚ,
      p.foilAmount t (Speed.fromKts v) = p.foilAmount t (Speed.fromKts (p.tws.getLast hne))) :
    Polar.interpolationIndex p.tws v = (p.tws.length - 1, 0, 1) ∧
    p.getBoatSpeeds heading ⟨dir, Speed.fromKts v⟩ cs ice all =
      p.getBoatSpeeds heading ⟨dir, Speed.fromKts (p.tws.getLast hne)⟩ cs ice all := by
  have hkv : (Speed.fromKts v).kts = v := rfl
  have hkl : (Speed.fromKts (p.tws.getLast hne)).kts = p.tws.getLast hne := rfl
  have hidx1 : Polar.interpolationIndex p.tws v = (p.tws.length - 1, 0, 1) :=
    interpolationIndex_all_lt p.tws v hne hgt
  have hidx2 := interpolationIndex_getLast p.tws hne hp
  refine ⟨hidx1, ?_⟩
  apply getBoatSpeeds_wind_congr
  · rfl
  · intro ti
    rw [hkv, hkl, hidx1, hidx2]
    by_cases hl : p.tws.length = 1
    · rw [if_pos hl, hl]
      ring
    · rw [if_neg hl]
      ring
  · exact hf

/-- C10 (counterexample): on `testPolar` (TWS table `[0,10,20,30]`, foil on),
the outputs of `get_boat_speeds` at 36 kt (above the whole table) and at the
maximum table TWS 30 kt differ: the foil ramp reads the raw wind speed
(ct = 1, cv = 3/4 at 36 kt vs cv = 1 at 30 kt), so the boat speed is 10.3 kt
instead of 10.4 kt. -/
theorem C10_counterexample :
    (∀ x ∈ testPolar.tws, x ≤ (30 : ℚ)) ∧ (30 : ℚ) ∈ testPolar.tws ∧ (30 : ℚ) < 36 ∧
    testPolar.getBoatSpeeds (Heading.TWA 100) ⟨0, Speed.fromKts 36⟩ currentSail0 false false ≠
      testPolar.getBoatSpeeds (Heading.TWA 100) ⟨0, Speed.fromKts 30⟩ currentSail0 false false := by
  refine ⟨?_, by norm_num [testPolar], by norm_num, ?_⟩
  · intro x hx
    simp only [testPolar, List.mem_cons, List.not_mem_nil, or_false] at hx
    rcases hx with h | h | h | h <;> rw [h] <;> norm_num
  · have h1 : testPolar.getBoatSpeeds (Heading.TWA 100) ⟨0, Speed.fromKts 36⟩ currentSail0
        false false = [⟨⟨0, 1, false⟩, ⟨103/10, .knot⟩, 75, 0, 1⟩] := by
      norm_num [Polar.getBoatSpeeds, Polar.getBoatSpeedsStep, Polar.interpolationIndex,
        interpGo, Polar.foilAmount, testPolar, currentSail0, Sail.fromIndex, Sail.fromUsize,
        Speed.kts, Speed.fromKts, Speed.mulAssign, ratTruncToU8, Heading.twa, List.foldl,
        List.getD, Int.toNat_ofNat]
      decide
    have h2 : testPolar.getBoatSpeeds (Heading.TWA 100) ⟨0, Speed.fromKts 30⟩ currentSail0
        false false = [⟨⟨0, 1, false⟩, ⟨52/5, .knot⟩, 100, 0, 1⟩] := by
      norm_num [Polar.getBoatSpeeds, Polar.getBoatSpeedsStep, Polar.interpolationIndex,
        interpGo, Polar.foilAmount, testPolar, currentSail0, Sail.fromIndex, Sail.fromUsize,
        Speed.kts, Speed.fromKts, Speed.mulAssign, ratTruncToU8, Heading.twa, List.foldl,
        List.getD, Int.toNat_ofNat]
      decide
    rw [h1, h2]
    intro hEq
    simp only [List.cons.injEq, PolarResult.mk.injEq, Speed.mk.injEq] at hEq
    have : (103 : ℚ)/10 = 52/5 := hEq.1.2.1.1
    norm_num at this

/-- C10 witness: at 100 kt the foil amount agrees with the one at the table
maximum (both saturate), so the amended theorem applies: the interpolation
index clamps to `(3, 0, 1)` and the boat speeds coincide with those at
30 kt. -/
theorem C10_witness :
    Polar.interpolationIndex testPolar.tws 100 = (3, 0, 1) ∧
    testPolar.getBoatSpeeds (Heading.TWA 100) ⟨0, Speed.fromKts 100⟩ currentSail0 false false =
      testPolar.getBoatSpeeds (Heading.TWA 100) ⟨0, Speed.fromKts 30⟩ currentSail0 false false := by
  have hne : testPolar.tws ≠ [] := by simp [testPolar]
  have h := C10_interpolation_clamps_at_table_edge testPolar 100 hne
    (by norm_num [testPolar])
    (by
      intro x hx
      simp only [testPolar, List.mem_cons, List.not_mem_nil, or_false] at hx
      rcases hx with h | h | h | h <;> rw [h] <;> norm_num)
    (Heading.TWA 100) 0 currentSail0 false false
    (by
      intro t
      norm_num [Polar.foilAmount, testPolar, Speed.kts, Speed.fromKts])
  have hlast : testPolar.tws.getLast hne = 30 := rfl
  constructor
  · have := h.1
    simpa [testPolar] using this
  · have := h.2
    rw [hlast] at this
    exact this

/-! ### C3 — high-water-mark monotonicity in navigate2 post-processing -/

/-- `getD` after `set` at the same index. -/
lemma listGetD_set_eq {α : Type} (w : List α) (s : ℕ) (v d : α) :
    (w.set s v).getD s d = if s < w.length then v else d := by
  rw [List.getD_eq_getElem?_getD, List.getElem?_set, if_pos rfl]
  split_ifs <;> rfl

/-- `getD` after `set` at a different index. -/
lemma listGetD_set_ne {α : Type} (w : List α) (s s' : ℕ) (h : s ≠ s') (v d : α) :
    (w.set s v).getD s' d = w.getD s' d := by
  rw [List.getD_eq_getElem?_getD, List.getElem?_set, if_neg h, List.getD_eq_getElem?_getD]

/-- `getD` of a replicated list of zeros. -/
lemma listGetD_replicate_zero (s : ℕ) :
    (List.replicate 8 Distance.zero).getD s Distance.zero = Distance.zero := by
  rw [List.getD_eq_getElem?_getD, List.getElem?_replicate]
  split_ifs <;> rfl

/-- Lookup after `maxSet` at the written key. -/
lemma maxLookup_maxSet_self (mm : MaxMap) (az : ℤ) (s : ℕ) (v : Distance) :
    maxLookup (maxSet mm az s v) az =
      some ((match maxLookup mm az with
             | some w => w
             | none => List.replicate 8 Distance.zero).set s v) := by
  induction mm with
  | nil => simp [maxSet, maxLookup]
  | cons e tl ih =>
    rcases e with ⟨k, w⟩
    by_cases hk : k = az <;> simp [maxSet, maxLookup, hk, ih]

/-- Lookup after `maxSet` at a different key. -/
lemma maxLookup_maxSet_ne (mm : MaxMap) (az az' : ℤ) (h : az' ≠ az) (s : ℕ) (v : Distance) :
    maxLookup (maxSet mm az s v) az' = maxLookup mm az' := by
  induction mm with
  | nil =>
    simp only [maxSet, maxLookup]
    rw [if_neg (Ne.symm h)]
  | cons e tl ih =>
    rcases e with ⟨k, w⟩
    by_cases hk : k = az
    · subst hk
      simp only [maxSet, if_pos rfl, maxLookup]
      rw [if_neg (Ne.symm h), if_neg (Ne.symm h)]
    · simp only [maxSet, if_neg hk, maxLookup]
      by_cases hk2 : k = az'
      · rw [if_pos hk2, if_pos hk2]
      · rw [if_neg hk2, if_neg hk2, ih]

/-- `m` of the scalar product. -/
lemma Distance.m_mulScalar (d : Distance) (r : ℚ) : (d.mulScalar r).m = d.m * r := by
  rcases d with ⟨val, u⟩
  cases u <;> simp [Distance.mulScalar, Distance.m] <;> ring

/-- Every cell of `max` is preserved or raised by a `maxSet` whose value is
non-negative and at least the previous content of the written cell. -/
lemma maxGetQ_maxSet_ge (mm : MaxMap) (az : ℤ) (s : ℕ) (v : Distance)
    (hv : 0 ≤ v.m) (hge : maxGetQ mm az s ≤ v.m) :
    ∀ az' s', maxGetQ mm az' s' ≤ maxGetQ (maxSet mm az s v) az' s' := by
  intro az' s'
  by_cases haz : az' = az
  · subst haz
    unfold maxGetQ
    rw [maxLookup_maxSet_self]
    rcases hL : maxLookup mm az' with _ | w
    · unfold maxGetQ at hge
      rw [hL] at hge
      dsimp only at hge ⊢
      by_cases hs : s' = s
      · subst hs
        rw [listGetD_set_eq]
        split_ifs
        · exact hge
        · rfl
      · rw [listGetD_set_ne _ _ _ (fun he => hs he.symm), listGetD_replicate_zero]
        norm_num [Distance.zero, Distance.m]
    · unfold maxGetQ at hge
      rw [hL] at hge
      dsimp only at hge ⊢
      by_cases hs : s' = s
      · subst hs
        rw [listGetD_set_eq]
        split_ifs with hlen
        · exact hge
        · rw [List.getD_eq_getElem?_getD, List.getElem?_eq_none (by omega)]
          exact le_refl _
      · rw [listGetD_set_ne _ _ _ (fun he => hs he.symm)]
  · unfold maxGetQ
    rw [maxLookup_maxSet_ne mm az az' haz]

/-- `processSlot` does nothing on an empty slot. -/
lemma processSlot_of_getD_none (ta : List (Coords × Coords × Coords)) (mr : Distance)
    (dm : Option Distance) (az : ℤ) (bfd : Distance)
    (st : List (Option RouterPosition) × ℤ × MaxMap) (s : ℕ)
    (h : st.1.getD s none = none) :
    processSlot ta mr dm az bfd st s = st := by
  unfold processSlot
  rw [h]

/-- Evaluation of a post-processing step on a frontier holding a single
alternative with a single variant in slot 0: the guard reads
`max[az][pos.sail_index]`, the far-from-minimum filter is vacuous (the
frontier size is 1 ≤ 25), the dominance filter compares the node against
itself, and a surviving node writes `max[az][0] = from_dist * 1.001`. -/
lemma processNav_single (ta : List (Coords × Coords × Coords)) (mr : Distance)
    (nm : Option Distance) (az : ℤ) (pos : RouterPosition) (mm : MaxMap) :
    (processNav ta mr nm [(az, ⟨[some pos, none, none, none, none, none, none, none]⟩)] mm).2 =
      if (match maxLookup mm az with
          | some d => decide (pos.from_dist.ltD (d.getD pos.sail_index Distance.zero))
          | none => false) then mm
      else if isToAvoid ta pos.point then mm
      else if pos.from_dist.m + pos.dist_to.m > mr.m then mm
      else if (pos.from_dist.addD (pos.boat_speed.mulDuration 18000)).ltD pos.from_dist then mm
      else maxSet mm az 0 (pos.from_dist.mulScalar (1001/1000)) := by
  have hbest : Alternative.best ⟨[some pos, none, none, none, none, none, none, none]⟩ =
      some pos := by
    simp [Alternative.best, slots8, List.foldl_cons, List.foldl_nil, List.getD]
  have hcount : Alternative.countVariants ⟨[some pos, none, none, none, none, none, none, none]⟩
      = 1 := by
    simp [Alternative.countVariants, List.filter]
  unfold processNav
  simp only [List.foldl_cons, List.foldl_nil, hcount]
  unfold processAlternative
  dsimp only
  rw [hbest]
  simp only [Option.map_some', Option.getD_some]
  split_ifs with hguard hc1 hc2 hc4
  · rfl
  · simp only [slots8, List.foldl_cons, List.foldl_nil]
    rw [show processSlot ta mr (nm.map fun mn => mn.mulScalar 2) az pos.from_dist
        ([some pos, none, none, none, none, none, none, none], 0 + 1, mm) 0 =
        ([some pos, none, none, none, none, none, none, none].set 0 none, 0 + 1 - 1, mm) from by
      unfold processSlot
      rw [show ([some pos, none, none, none, none, none, none, none].getD 0 none) = some pos
        from rfl]
      dsimp only
      rw [if_pos hc1]]
    simp only [List.set_cons_zero, processSlot_of_getD_none, List.getD_cons_succ,
      List.getD_cons_zero]
  · simp only [slots8, List.foldl_cons, List.foldl_nil]
    rw [show processSlot ta mr (nm.map fun mn => mn.mulScalar 2) az pos.from_dist
        ([some pos, none, none, none, none, none, none, none], 0 + 1, mm) 0 =
        ([some pos, none, none, none, none, none, none, none].set 0 none, 0 + 1 - 1, mm) from by
      unfold processSlot
      rw [show ([some pos, none, none, none, none, none, none, none].getD 0 none) = some pos
        from rfl]
      dsimp only
      rw [if_neg hc1, if_pos hc2]]
    simp only [List.set_cons_zero, processSlot_of_getD_none, List.getD_cons_succ,
      List.getD_cons_zero]
  · simp only [slots8, List.foldl_cons, List.foldl_nil]
    rw [show processSlot ta mr (nm.map fun mn => mn.mulScalar 2) az pos.from_dist
        ([some pos, none, none, none, none, none, none, none], 0 + 1, mm) 0 =
        ([some pos, none, none, none, none, none, none, none].set 0 none, 0 + 1 - 1, mm) from by
      unfold processSlot
      rw [show ([some pos, none, none, none, none, none, none, none].getD 0 none) = some pos
        from rfl]
      dsimp only
      rw [if_neg hc1, if_neg hc2]
      rw [if_neg (by rcases nm with _ | mn <;> norm_num), if_pos hc4]]
    simp only [List.set_cons_zero, processSlot_of_getD_none, List.getD_cons_succ,
      List.getD_cons_zero]
  · simp only [slots8, List.foldl_cons, List.foldl_nil]
    rw [show processSlot ta mr (nm.map fun mn => mn.mulScalar 2) az pos.from_dist
        ([some pos, none, none, none, none, none, none, none], 0 + 1, mm) 0 =
        ([some pos, none, none, none, none, none, none, none], 0 + 1,
          maxSet mm az 0 (pos.from_dist.mulScalar (1001/1000))) from by
      unfold processSlot
      rw [show ([some pos, none, none, none, none, none, none, none].getD 0 none) = some pos
        from rfl]
      dsimp only
      rw [if_neg hc1, if_neg hc2]
      rw [if_neg (by rcases nm with _ | mn <;> norm_num), if_neg hc4]]
    simp only [processSlot_of_getD_none, List.getD_cons_succ, List.getD_cons_zero]

/-- C3 (amended): a post-processing step preserves or raises every `max` cell
when the surviving frontier alternative holds a single variant stored in
slot 0 whose sail index is 0 (so that the guarded cell and the written cell
coincide) and whose `from_dist` is non-negative.  In general the invariant
fails: the guard reads `max[az][best.sail.index]` while the write targets the
storage slot — see the counterexample. -/
theorem C3_max_monotone_when_slot_matches_sail (toAvoids : List (Coords × Coords × Coords))
    (maxRadius : Distance) (navMin : Option Distance) (mm : MaxMap) (az : ℤ)
    (pos : RouterPosition) (hsail : pos.sail_index = 0) (hfd : 0 ≤ pos.from_dist.m) :
    ∀ az' s', maxGetQ mm az' s' ≤
      maxGetQ (processNav toAvoids maxRadius navMin
        [(az, ⟨[some pos, none, none, none, none, none, none, none]⟩)] mm).2 az' s' := by
  intro az' s'
  rw [processNav_single]
  split_ifs with hguard hc1 hc2 hc4
  · exact le_refl _
  · exact le_refl _
  · exact le_refl _
  · exact le_refl _
  · apply maxGetQ_maxSet_ge
    · rw [Distance.m_mulScalar]
      positivity
    · rw [Distance.m_mulScalar]
      rw [hsail] at hguard
      unfold maxGetQ
      rcases hL : maxLookup mm az with _ | w
      · positivity
      · dsimp only
        rw [hL] at hguard
        have hle : (w.getD 0 Distance.zero).m ≤ pos.from_dist.m := by
          dsimp only at hguard
          simp only [decide_eq_true_eq, Distance.ltD, not_lt] at hguard
          exact hguard
        nlinarith

/-- C3 (counterexample): with `max[5][0] = 100 m` already recorded, a frontier
node at azimuth 5 stored in slot 0 (as `merge_fast` always does) with sail
index 3 and `from_dist = 50 m` passes the regression guard — which reads
`max[5][3] = 0` — and then writes `max[5][0] = 50.05 m`, strictly below the
previously stored 100 m: the high-water mark decreases. -/
theorem C3_counterexample :
    maxGetQ (processNav [] (Distance.fromM 1000000) none [(5, c3Alt)] c3MaxMap0).2 5 0 <
      maxGetQ c3MaxMap0 5 0 ∧
    maxGetQ c3MaxMap0 5 0 = 100 ∧
    maxGetQ (processNav [] (Distance.fromM 1000000) none [(5, c3Alt)] c3MaxMap0).2 5 0 =
      1001/20 := by
  have hval : maxGetQ (processNav [] (Distance.fromM 1000000) none [(5, c3Alt)] c3MaxMap0).2
      5 0 = 1001/20 := by
    simp only [processNav, processAlternative, processSlot, maxLookup, maxSet,
      c3Alt, c3MaxMap0, c3Pos, slots8, Alternative.best, Alternative.countVariants,
      isToAvoid, List.foldl_cons, List.foldl_nil, List.getD, List.set, List.any_nil,
      List.map_nil, Option.map_none, Option.map_some, Option.getD_some, Option.getD_none]
    norm_num [maxGetQ, maxLookup, maxSet, Distance.fromM, Distance.zero, Distance.m,
      Distance.ltD, Distance.addD, Distance.mulScalar, Distance.val, Speed.fromMS,
      Speed.mulDuration, Speed.m_s, List.getD, List.set]
  have hold : maxGetQ c3MaxMap0 5 0 = 100 := by
    norm_num [maxGetQ, maxLookup, c3MaxMap0, List.getD, Distance.fromM, Distance.m]
  exact ⟨by rw [hval, hold]; norm_num, hold, hval⟩

/-- C3 witness: the amended theorem applied to a slot-0/sail-0 node with
`from_dist = 50 m` against the same prior map: the cell `max[5][0]` does not
decrease. -/
theorem C3_witness :
    maxGetQ c3MaxMap0 5 0 ≤
      maxGetQ (processNav [] (Distance.fromM 1000000) none
        [(5, ⟨[some ⟨⟨0, 0⟩, Distance.fromM 50, Distance.fromM 10, Speed.fromMS 1, 0⟩,
          none, none, none, none, none, none, none]⟩)] c3MaxMap0).2 5 0 :=
  C3_max_monotone_when_slot_matches_sail [] (Distance.fromM 1000000) none c3MaxMap0 5
    ⟨⟨0, 0⟩, Distance.fromM 50, Distance.fromM 10, Speed.fromMS 1, 0⟩ rfl
    (by norm_num [Distance.fromM, Distance.m]) 5 0

end Phth
